import Mathlib

/-!
Verification of the llmsim request-to-stream pipeline.

This file gives a shallow embedding, in Lean, of the core components of the
llmsim LLM API simulator (streaming tokenizer, chat stream engine, responses
stream engine, reasoning-token accounting, tokenizer selection, error
injection, latency sampling, request token accounting, statistics
aggregator), together with theorems settling the stated properties of the
specification against the code.

Modelling conventions:
- Rust `String` values are modelled as `List Char` (the code iterates with
  `chars()`); `u64`/`u32`/`usize` counters are modelled as `Nat` (the spec
  states that counter overflow is out of scope: "integer overflow not
  required; 64-bit is sufficient"), except where a wraparound or sentinel is
  semantically relevant (`u64::MAX` min-latency sentinel, `fetch_sub`
  wraparound), which are modelled explicitly.
- `f64` arithmetic on configured rates, multipliers and samples is modelled
  with exact rational arithmetic (`ℚ`); all multipliers in the code are small
  multiples of 1/2, so products are exactly representable for all realistic
  magnitudes, and `as usize`/`as u64` casts of non-negative values are
  modelled by `Nat.floor` (truncation toward zero).
- Randomness is modelled by passing each draw as an explicit argument:
  `rng.random()` becomes a rational `roll`, `rng.random_bool(0.7)` a `Bool`,
  and `rng.random_range(1..60)` the image of an arbitrary natural under the
  range-reduction map `1 + u % 59`.
- SSE wire frames are modelled structurally: each `yield` of the Rust stream
  engines produces one element of a Lean list, with the JSON/SSE text
  serialization abstracted into an inductive frame type whose constructors
  carry exactly the payload fields the serializers emit.
-/

namespace LlmSim

/-- Abbreviation turning a Lean string literal into the `List Char` model of
a Rust string. -/
def str (s : String) : List Char := s.toList

/-- Model of Rust `char::is_whitespace`: the Unicode `White_Space` property
(U+0009..U+000D, U+0020, U+0085, U+00A0, U+1680, U+2000..U+200A, U+2028,
U+2029, U+202F, U+205F, U+3000). -/
def rustIsWhitespace (c : Char) : Bool :=
  decide ((0x09 ≤ c.toNat ∧ c.toNat ≤ 0x0D) ∨ c.toNat = 0x20 ∨ c.toNat = 0x85 ∨
    c.toNat = 0xA0 ∨ c.toNat = 0x1680 ∨ (0x2000 ≤ c.toNat ∧ c.toNat ≤ 0x200A) ∨
    c.toNat = 0x2028 ∨ c.toNat = 0x2029 ∨ c.toNat = 0x202F ∨ c.toNat = 0x205F ∨
    c.toNat = 0x3000)

/-- The character walk shared verbatim by `TokenStream::tokenize`
(src/stream.rs), `ResponsesTokenStream::tokenize` and
`ResponsesTokenStream::tokenize_text` (src/responses_stream.rs): accumulate
runs of non-whitespace characters into `cur`; on a whitespace character,
flush the accumulated word (if non-empty) and emit the whitespace character
as its own token; flush the trailing word at the end. -/
def tokenizeCore : List Char → List Char → List (List Char)
  | [], cur => if cur = [] then [] else [cur]
  | c :: rest, cur =>
    if rustIsWhitespace c then
      (if cur = [] then [[c]] else [cur, [c]]) ++ tokenizeCore rest []
    else
      tokenizeCore rest (cur ++ [c])

/-- `TokenStream::tokenize` from src/stream.rs. -/
def tokenize (content : List Char) : List (List Char) := tokenizeCore content []

/-- `ResponsesTokenStream::tokenize` from src/responses_stream.rs
(textually identical body to `TokenStream::tokenize`). -/
def respTokenize (content : List Char) : List (List Char) := tokenizeCore content []

/-- `ResponsesTokenStream::tokenize_text` from src/responses_stream.rs
(textually identical body, applied to the reasoning summary text). -/
def respTokenizeText (text : List Char) : List (List Char) := tokenizeCore text []

/-- A word token: non-empty and made only of non-whitespace characters. -/
def IsWordTok (t : List Char) : Prop :=
  t ≠ [] ∧ ∀ c ∈ t, rustIsWhitespace c = false

lemma tokenizeCore_join (cs : List Char) :
    ∀ cur, (tokenizeCore cs cur).flatten = cur ++ cs := by
  induction cs with
  | nil =>
    intro cur
    by_cases h : cur = [] <;> simp [tokenizeCore, h]
  | cons c rest ih =>
    intro cur
    by_cases hw : rustIsWhitespace c
    · by_cases h : cur = [] <;> simp [tokenizeCore, hw, h, ih]
    · simp [tokenizeCore, hw, ih]

/-- Concatenating the tokens reproduces the content, byte-identically. -/
lemma tokenize_join (content : List Char) : (tokenize content).flatten = content := by
  simpa using tokenizeCore_join content []

lemma tokenizeCore_shape (cs : List Char) :
    ∀ cur, (∀ c ∈ cur, rustIsWhitespace c = false) →
      ∀ t ∈ tokenizeCore cs cur,
        t ≠ [] ∧ ((∃ c, t = [c] ∧ rustIsWhitespace c = true) ∨
          ∀ c ∈ t, rustIsWhitespace c = false) := by
  induction cs with
  | nil =>
    intro cur hcur t ht
    by_cases h : cur = []
    · simp [tokenizeCore, h] at ht
    · simp [tokenizeCore, h] at ht
      subst ht
      exact ⟨h, Or.inr hcur⟩
  | cons c rest ih =>
    intro cur hcur t ht
    by_cases hw : rustIsWhitespace c
    · by_cases h : cur = []
      · simp [tokenizeCore, hw, h] at ht
        rcases ht with ht | ht
        · subst ht
          exact ⟨by simp, Or.inl ⟨c, rfl, hw⟩⟩
        · exact ih [] (by simp) t ht
      · simp [tokenizeCore, hw, h] at ht
        rcases ht with ht | ht | ht
        · subst ht
          exact ⟨h, Or.inr hcur⟩
        · subst ht
          exact ⟨by simp, Or.inl ⟨c, rfl, hw⟩⟩
        · exact ih [] (by simp) t ht
    · refine ih (cur ++ [c]) ?_ t (by simpa [tokenizeCore, hw] using ht)
      intro d hd
      rcases List.mem_append.1 hd with hd | hd
      · exact hcur d hd
      · simp at hd
        subst hd
        simpa using hw

/-- Adjacent tokens are never both words: word runs are maximal. -/
lemma tokenizeCore_chain (cs : List Char) :
    ∀ cur, List.Chain' (fun a b => ¬(IsWordTok a ∧ IsWordTok b)) (tokenizeCore cs cur) := by
  induction cs with
  | nil =>
    intro cur
    by_cases h : cur = [] <;> simp [tokenizeCore, h]
  | cons c rest ih =>
    intro cur
    by_cases hw : rustIsWhitespace c
    · have hnotword : ¬ IsWordTok [c] := by
        intro hword
        have := hword.2 c (by simp)
        rw [this] at hw
        exact Bool.noConfusion hw
      by_cases h : cur = []
      · simp only [tokenizeCore, hw, if_pos h, if_true, List.cons_append, List.nil_append]
        refine List.chain'_cons'.2 ⟨?_, ih []⟩
        intro y _
        exact fun hcon => hnotword hcon.1
      · simp only [tokenizeCore, hw, if_neg h, if_true, List.cons_append, List.nil_append]
        refine List.chain'_cons'.2 ⟨?_, List.chain'_cons'.2 ⟨?_, ih []⟩⟩
        · intro y hy
          simp at hy
          subst hy
          exact fun hcon => hnotword hcon.2
        · intro y _
          exact fun hcon => hnotword hcon.1
    · simpa [tokenizeCore, hw] using ih (cur ++ [c])

/-! Chat completions data model (src/openai/types.rs). -/

/-- Message role (src/openai/types.rs `Role`). -/
inductive Role
  | system
  | user
  | assistant
  | tool
deriving DecidableEq

/-- Token usage (src/openai/types.rs `Usage`). -/
structure Usage where
  prompt_tokens : Nat
  completion_tokens : Nat
  total_tokens : Nat
deriving DecidableEq

/-- Delta content of a streaming chunk (src/openai/types.rs `ChunkDelta`).
The `tool_calls` payload type is abstracted to `Unit`; the stream engine
always emits `none` for it. -/
structure ChunkDelta where
  role : Option Role
  content : Option (List Char)
  tool_calls : Option Unit
deriving DecidableEq

/-- One choice of a streaming chunk (src/openai/types.rs `ChunkChoice`).
The `logprobs` field, always `None` in the engine, is abstracted to
`Option Unit`. -/
structure ChunkChoice where
  index : Nat
  delta : ChunkDelta
  finish_reason : Option (List Char)
  logprobs : Option Unit
deriving DecidableEq

/-- A streaming chunk (src/openai/types.rs `ChatCompletionChunk`); the
constant `object` and `system_fingerprint` fields are omitted. -/
structure ChatCompletionChunk where
  id : List Char
  created : Int
  model : List Char
  choices : List ChunkChoice
  usage : Option Usage
deriving DecidableEq

/-- `ChatCompletionChunk::new` (empty choices, no usage). -/
def ChatCompletionChunk.new (id : List Char) (model : List Char) (created : Int) :
    ChatCompletionChunk :=
  { id := id, created := created, model := model, choices := [], usage := none }

/-- `ChatCompletionChunk::with_role`: one choice whose delta announces the
assistant role, with no content and no finish reason. -/
def ChatCompletionChunk.with_role (c : ChatCompletionChunk) : ChatCompletionChunk :=
  { c with choices :=
      [{ index := 0
         delta := { role := some .assistant, content := none, tool_calls := none }
         finish_reason := none
         logprobs := none }] }

/-- `ChatCompletionChunk::with_content`: one choice whose delta carries a
content token. -/
def ChatCompletionChunk.with_content (c : ChatCompletionChunk) (content : List Char) :
    ChatCompletionChunk :=
  { c with choices :=
      [{ index := 0
         delta := { role := none, content := some content, tool_calls := none }
         finish_reason := none
         logprobs := none }] }

/-- `ChatCompletionChunk::with_finish`: one choice with an empty delta and a
finish reason. -/
def ChatCompletionChunk.with_finish (c : ChatCompletionChunk) (reason : List Char) :
    ChatCompletionChunk :=
  { c with choices :=
      [{ index := 0
         delta := { role := none, content := none, tool_calls := none }
         finish_reason := some reason
         logprobs := none }] }

/-- `ChatCompletionChunk::with_usage`. -/
def ChatCompletionChunk.with_usage (c : ChatCompletionChunk) (u : Usage) :
    ChatCompletionChunk :=
  { c with usage := some u }

/-- One SSE frame of the chat stream: either a serialized chunk
(`format_sse`, producing one data frame per chunk) or the terminal
literal `data: [DONE]` frame. -/
inductive SseFrame
  | data (chunk : ChatCompletionChunk)
  | done
deriving DecidableEq

/-- State of `TokenStream` (src/stream.rs). The latency profile only drives
the sleeps between yields, never the frame contents or their order, so it is
not part of the frame computation; `id` and `created` are the values chosen
at construction time. -/
structure TokenStream where
  id : List Char
  model : List Char
  created : Int
  content : List Char
  usage : Option Usage

/-- The frame sequence yielded by `TokenStream::into_stream` (src/stream.rs
lines 72-118): role chunk, one content chunk per token, finish chunk with
reason `stop` (carrying the usage when supplied), then the DONE marker. -/
def chatStreamFrames (s : TokenStream) : List SseFrame :=
  [.data ((ChatCompletionChunk.new s.id s.model s.created).with_role)]
  ++ (tokenize s.content).map
      (fun t => .data ((ChatCompletionChunk.new s.id s.model s.created).with_content t))
  ++ [.data (match s.usage with
      | some u =>
        ((ChatCompletionChunk.new s.id s.model s.created).with_finish (str "stop")).with_usage u
      | none => (ChatCompletionChunk.new s.id s.model s.created).with_finish (str "stop"))]
  ++ [.done]

/-- Classification of a chat SSE frame by its observable shape. -/
inductive FrameKind
  | role
  | content
  | finish
  | done
  | other
deriving DecidableEq

/-- Classify a frame: a single choice with a role delta is a role frame,
with a content delta a content frame, with a finish reason a finish frame. -/
def frameKind : SseFrame → FrameKind
  | .done => .done
  | .data c =>
    match c.choices with
    | [ch] =>
      if ch.delta.role.isSome then .role
      else if ch.delta.content.isSome then .content
      else if ch.finish_reason.isSome then .finish
      else .other
    | _ => .other

/-- The delta content string carried by a frame, if any. -/
def frameDelta : SseFrame → Option (List Char)
  | .data c => match c.choices with | [ch] => ch.delta.content | _ => none
  | .done => none

/-- One-shot chat response message (src/openai/types.rs `Message`). -/
structure ChatMessage where
  role : Role
  content : Option (List Char)
deriving DecidableEq

/-- One-shot chat response choice (src/openai/types.rs `Choice`). -/
structure Choice where
  index : Nat
  message : ChatMessage
  finish_reason : Option (List Char)
deriving DecidableEq

/-- One-shot chat response (src/openai/types.rs `ChatCompletionResponse`);
constant fields omitted. -/
structure ChatCompletionResponse where
  id : List Char
  created : Int
  model : List Char
  choices : List Choice
  usage : Option Usage
deriving DecidableEq

/-- `ChatCompletionResponse::new` (src/openai/types.rs lines 201-216): a
single choice carrying the complete content as the assistant message. The
generated uuid id and wall-clock timestamp are passed as parameters. -/
def ChatCompletionResponse.new (id : List Char) (created : Int)
    (model content : List Char) (usage : Usage) : ChatCompletionResponse :=
  { id := id
    created := created
    model := model
    choices :=
      [{ index := 0
         message := { role := .assistant, content := some content }
         finish_reason := some (str "stop") }]
    usage := some usage }

/-! Responses API data model (src/openai/responses.rs) and stream engine
(src/responses_stream.rs). -/

/-- Item status (src/openai/responses.rs `ItemStatus`). -/
inductive ItemStatus
  | inProgress
  | completed
deriving DecidableEq

/-- Response status (src/openai/responses.rs `ResponseStatus`). -/
inductive ResponseStatus
  | inProgress
  | completed
deriving DecidableEq

/-- A reasoning summary part (src/openai/responses.rs `ReasoningSummary`). -/
structure ReasoningSummary where
  summary_type : List Char
  text : List Char
deriving DecidableEq

/-- An output content part (src/openai/responses.rs `OutputContentPart`);
only the `OutputText` variant is produced by the engine. -/
inductive OutputContentPart
  | outputText (text : List Char)
deriving DecidableEq

/-- An output item (src/openai/responses.rs `OutputItem`). -/
inductive OutputItem
  | reasoning (id : List Char) (status : ItemStatus)
      (summary : Option (List ReasoningSummary))
  | message (id : List Char) (role : Role) (status : ItemStatus)
      (content : List OutputContentPart)
deriving DecidableEq

/-- Responses usage (src/openai/responses.rs `ResponsesUsage`); the nested
`output_tokens_details` struct is flattened to its single
`reasoning_tokens` field. -/
structure ResponsesUsage where
  input_tokens : Nat
  output_tokens : Nat
  total_tokens : Nat
  output_tokens_details : Option Nat
deriving DecidableEq

/-- A full response object (src/openai/responses.rs `ResponsesResponse`);
the constant `object` field and the always-`None` `error`/`metadata` fields
are omitted. -/
structure ResponsesResponse where
  id : List Char
  created_at : Int
  model : List Char
  status : ResponseStatus
  output : List OutputItem
  output_text : Option (List Char)
  usage : Option ResponsesUsage
deriving DecidableEq

/-- One SSE event of the responses stream. Each constructor mirrors one
`ResponsesStreamEvent` builder of src/openai/responses.rs, carrying exactly
the payload fields that builder serializes. There is no DONE marker. -/
inductive RespEvent
  | response_created (r : ResponsesResponse)
  | response_in_progress (r : ResponsesResponse)
  | output_item_added (output_index : Nat) (item : OutputItem)
  | reasoning_summary_part_added (output_index content_index : Nat) (part : ReasoningSummary)
  | reasoning_summary_text_delta (output_index content_index : Nat)
      (delta : List Char) (sequence_number : Nat)
  | reasoning_summary_text_done (output_index content_index : Nat) (text : List Char)
  | reasoning_summary_part_done (output_index content_index : Nat) (part : ReasoningSummary)
  | content_part_added (output_index content_index : Nat) (part : OutputContentPart)
  | output_text_delta (output_index content_index : Nat)
      (delta : List Char) (sequence_number : Nat)
  | output_text_done (output_index content_index : Nat) (text : List Char)
  | content_part_done (output_index content_index : Nat) (part : OutputContentPart)
  | output_item_done (output_index : Nat) (item : OutputItem)
  | response_completed (r : ResponsesResponse)
deriving DecidableEq

/-- Reasoning configuration of the stream
(src/responses_stream.rs `ReasoningStreamConfig`). -/
structure ReasoningStreamConfig where
  summary_text : Option (List Char)
deriving DecidableEq

/-- State of `ResponsesTokenStream` (src/responses_stream.rs). As for
`TokenStream`, the latency profile only drives sleeps, and the
`on_complete` callback runs after the last yield, so neither affects the
frame sequence; the uuid-generated ids are the values chosen at
construction time. -/
structure ResponsesTokenStream where
  response_id : List Char
  message_id : List Char
  model : List Char
  created_at : Int
  content : List Char
  usage : ResponsesUsage
  reasoning : Option ReasoningStreamConfig

/-- Pair each list element with a counter value starting from `n`,
modelling the running `sequence_counter` that increments once per emitted
delta. -/
def numberFrom : Nat → List α → List (α × Nat)
  | _, [] => []
  | n, a :: as => (a, n) :: numberFrom (n + 1) as

/-- The summary tokens streamed by the reasoning prelude: the tokenization
of `summary_text` when reasoning is configured with a summary, else none. -/
def summaryTokens (s : ResponsesTokenStream) : List (List Char) :=
  match s.reasoning with
  | some cfg =>
    match cfg.summary_text with
    | some t => respTokenizeText t
    | none => []
  | none => []

/-- The message output index: 1 when reasoning is present, else 0
(src/responses_stream.rs lines 167-236). -/
def messageOutputIndex (s : ResponsesTokenStream) : Nat :=
  if s.reasoning.isSome then 1 else 0

/-- The initial response payload of `into_stream` (status in_progress,
empty output, no usage), yielded by `response.created` and
`response.in_progress`. -/
def respInitialResponse (s : ResponsesTokenStream) : ResponsesResponse :=
  { id := s.response_id
    created_at := s.created_at
    model := s.model
    status := .inProgress
    output := []
    output_text := none
    usage := none }

/-- The reasoning prelude events of `into_stream`
(src/responses_stream.rs lines 172-236): nothing when reasoning is not
configured; otherwise the reasoning `output_item.added`, then (iff a
summary text is provided) the summary part/delta/done events, then the
reasoning `output_item.done`. -/
def respReasoningEvents (s : ResponsesTokenStream) (reasoning_id : List Char) :
    List RespEvent :=
  match s.reasoning with
  | none => []
  | some cfg =>
    [.output_item_added 0 (.reasoning reasoning_id .inProgress none)]
    ++ (match cfg.summary_text with
        | none => []
        | some t =>
          [.reasoning_summary_part_added 0 0 { summary_type := str "summary_text", text := [] }]
          ++ (numberFrom 0 (respTokenizeText t)).map
              (fun p => .reasoning_summary_text_delta 0 0 p.1 p.2)
          ++ [.reasoning_summary_text_done 0 0 t,
              .reasoning_summary_part_done 0 0 { summary_type := str "summary_text", text := t }])
    ++ [.output_item_done 0 (.reasoning reasoning_id .completed
          (cfg.summary_text.map (fun t => [{ summary_type := str "summary_text", text := t }])))]

/-- The completed reasoning items accumulated in `all_output_items` before
the message item. -/
def respReasoningItems (s : ResponsesTokenStream) (reasoning_id : List Char) :
    List OutputItem :=
  match s.reasoning with
  | none => []
  | some cfg =>
    [.reasoning reasoning_id .completed
      (cfg.summary_text.map (fun t => [{ summary_type := str "summary_text", text := t }]))]

/-- The completed message item of the stream. -/
def respFinalMessage (s : ResponsesTokenStream) : OutputItem :=
  .message s.message_id .assistant .completed [.outputText s.content]

/-- The final response payload yielded by `response.completed`. -/
def respFinalResponse (s : ResponsesTokenStream) (reasoning_id : List Char) :
    ResponsesResponse :=
  { id := s.response_id
    created_at := s.created_at
    model := s.model
    status := .completed
    output := respReasoningItems s reasoning_id ++ [respFinalMessage s]
    output_text := some s.content
    usage := some s.usage }

/-- The event sequence yielded by `ResponsesTokenStream::into_stream`
(src/responses_stream.rs lines 128-311). `reasoning_id` is the uuid
generated for the reasoning item inside the stream body. The running
`sequence_counter` equals the number of reasoning summary deltas already
emitted when the message deltas begin. -/
def respStreamEvents (s : ResponsesTokenStream) (reasoning_id : List Char) :
    List RespEvent :=
  [.response_created (respInitialResponse s),
   .response_in_progress (respInitialResponse s)]
  ++ respReasoningEvents s reasoning_id
  ++ [.output_item_added (messageOutputIndex s)
        (.message s.message_id .assistant .inProgress []),
      .content_part_added (messageOutputIndex s) 0 (.outputText [])]
  ++ (numberFrom (summaryTokens s).length (respTokenize s.content)).map
      (fun p => .output_text_delta (messageOutputIndex s) 0 p.1 p.2)
  ++ [.output_text_done (messageOutputIndex s) 0 s.content,
      .content_part_done (messageOutputIndex s) 0 (.outputText s.content),
      .output_item_done (messageOutputIndex s) (respFinalMessage s)]
  ++ [.response_completed (respFinalResponse s reasoning_id)]

/-- The sequence number carried by an delta event, if any: exactly the
`reasoning_summary_text.delta` and `output_text.delta` frames carry one. -/
def seqNumOf : RespEvent → Option Nat
  | .reasoning_summary_text_delta _ _ _ n => some n
  | .output_text_delta _ _ _ n => some n
  | _ => none

/-- The delta string carried by a message output-text delta event, if any. -/
def respDeltaOf : RespEvent → Option (List Char)
  | .output_text_delta _ _ d _ => some d
  | _ => none

/-- Whether an event is part of the reasoning prelude: a reasoning summary
event or an item event whose item is a reasoning item. -/
def IsReasoningEvent : RespEvent → Prop
  | .reasoning_summary_part_added _ _ _ => True
  | .reasoning_summary_text_delta _ _ _ _ => True
  | .reasoning_summary_text_done _ _ _ => True
  | .reasoning_summary_part_done _ _ _ => True
  | .output_item_added _ (.reasoning _ _ _) => True
  | .output_item_done _ (.reasoning _ _ _) => True
  | _ => False

/-- Whether an event is an `output_item.added` for a message item. -/
def IsMessageItemAdded : RespEvent → Prop
  | .output_item_added _ (.message _ _ _ _) => True
  | _ => False

lemma numberFrom_map_fst (l : List α) : ∀ n, (numberFrom n l).map Prod.fst = l := by
  induction l with
  | nil => intro n; simp [numberFrom]
  | cons a as ih => intro n; simp [numberFrom, ih]

lemma numberFrom_map_snd (l : List α) :
    ∀ n, (numberFrom n l).map Prod.snd = List.range' n l.length := by
  induction l with
  | nil => intro n; simp [numberFrom]
  | cons a as ih => intro n; simp [numberFrom, ih, List.range']

lemma respDelta_msg_deltas (msgIdx : Nat) (toks : List (List Char)) : ∀ k,
    (numberFrom k toks).filterMap
        (respDeltaOf ∘ fun p => RespEvent.output_text_delta msgIdx 0 p.1 p.2)
      = toks := by
  induction toks with
  | nil => intro k; simp [numberFrom]
  | cons a as ih => intro k; simp [numberFrom, respDeltaOf, ih]

lemma respDelta_reasoning_deltas (toks : List (List Char)) : ∀ k,
    (numberFrom k toks).filterMap
        (respDeltaOf ∘ fun p => RespEvent.reasoning_summary_text_delta 0 0 p.1 p.2)
      = [] := by
  induction toks with
  | nil => intro k; simp [numberFrom]
  | cons a as ih => intro k; simp [numberFrom, respDeltaOf, ih]

lemma seq_msg_deltas (msgIdx : Nat) (toks : List (List Char)) : ∀ k,
    (numberFrom k toks).filterMap
        (seqNumOf ∘ fun p => RespEvent.output_text_delta msgIdx 0 p.1 p.2)
      = List.range' k toks.length := by
  induction toks with
  | nil => intro k; simp [numberFrom]
  | cons a as ih => intro k; simp [numberFrom, seqNumOf, ih, List.range']

lemma seq_reasoning_deltas (toks : List (List Char)) : ∀ k,
    (numberFrom k toks).filterMap
        (seqNumOf ∘ fun p => RespEvent.reasoning_summary_text_delta 0 0 p.1 p.2)
      = List.range' k toks.length := by
  induction toks with
  | nil => intro k; simp [numberFrom]
  | cons a as ih => intro k; simp [numberFrom, seqNumOf, ih, List.range']

lemma range'_zero_append (k m : Nat) :
    List.range' 0 k ++ List.range' k m = List.range (k + m) := by
  have h := List.range'_append 0 k m 1
  simp only [Nat.one_mul, Nat.zero_add] at h
  rw [List.range_eq_range', h, Nat.add_comm]

lemma no_reasoning_in_msg_deltas (msgIdx k : Nat) (toks : List (List Char)) :
    ∀ e ∈ (numberFrom k toks).map
        (fun p => RespEvent.output_text_delta msgIdx 0 p.1 p.2),
      ¬ IsReasoningEvent e := by
  intro e he
  simp only [List.mem_map] at he
  obtain ⟨p, _, rfl⟩ := he
  simp [IsReasoningEvent]

lemma respReasoningEvents_no_msg_added (s : ResponsesTokenStream) (rid : List Char) :
    ∀ e ∈ respReasoningEvents s rid, ¬ IsMessageItemAdded e := by
  intro e he hmsg
  cases e with
  | output_item_added idx item =>
    cases item with
    | reasoning a b c => simp [IsMessageItemAdded] at hmsg
    | message a b c d =>
      rcases hr : s.reasoning with _ | cfg
      · simp [respReasoningEvents, hr] at he
      · rcases hst : cfg.summary_text with _ | t <;>
          simp [respReasoningEvents, hr, hst] at he
  | response_created r => simp [IsMessageItemAdded] at hmsg
  | response_in_progress r => simp [IsMessageItemAdded] at hmsg
  | reasoning_summary_part_added a b c => simp [IsMessageItemAdded] at hmsg
  | reasoning_summary_text_delta a b c d => simp [IsMessageItemAdded] at hmsg
  | reasoning_summary_text_done a b c => simp [IsMessageItemAdded] at hmsg
  | reasoning_summary_part_done a b c => simp [IsMessageItemAdded] at hmsg
  | content_part_added a b c => simp [IsMessageItemAdded] at hmsg
  | output_text_delta a b c d => simp [IsMessageItemAdded] at hmsg
  | output_text_done a b c => simp [IsMessageItemAdded] at hmsg
  | content_part_done a b c => simp [IsMessageItemAdded] at hmsg
  | output_item_done a b => simp [IsMessageItemAdded] at hmsg
  | response_completed r => simp [IsMessageItemAdded] at hmsg

lemma respReasoningEvents_seq (s : ResponsesTokenStream) (rid : List Char) :
    (respReasoningEvents s rid).filterMap seqNumOf
      = List.range' 0 (summaryTokens s).length := by
  rcases hr : s.reasoning with _ | cfg
  · simp [respReasoningEvents, summaryTokens, hr]
  · rcases hst : cfg.summary_text with _ | t <;>
      simp [respReasoningEvents, summaryTokens, hr, hst, seqNumOf,
        seq_reasoning_deltas, List.filterMap_append]

lemma respReasoningEvents_no_delta (s : ResponsesTokenStream) (rid : List Char) :
    (respReasoningEvents s rid).filterMap respDeltaOf = [] := by
  rcases hr : s.reasoning with _ | cfg
  · simp [respReasoningEvents, hr]
  · rcases hst : cfg.summary_text with _ | t <;>
      simp [respReasoningEvents, hr, hst, respDeltaOf,
        respDelta_reasoning_deltas, List.filterMap_append]

/-- Claim C1: both stream engines tokenize the content into maximal runs of
non-whitespace characters (each run one token) with every whitespace
character as its own token, and concatenating the emitted delta strings in
emission order reproduces the content string byte-identically — the same
string the one-shot path returns for the same request. -/
theorem streaming_deltas_reconstruct_content (s : TokenStream)
    (r : ResponsesTokenStream) (reasoning_id : List Char) :
    (∀ cs, respTokenize cs = tokenize cs ∧ respTokenizeText cs = tokenize cs) ∧
    (∀ cs, ∀ t ∈ tokenize cs,
      t ≠ [] ∧ ((∃ c, t = [c] ∧ rustIsWhitespace c = true) ∨
        ∀ c ∈ t, rustIsWhitespace c = false)) ∧
    (∀ cs, List.Chain' (fun a b => ¬(IsWordTok a ∧ IsWordTok b)) (tokenize cs)) ∧
    ((chatStreamFrames s).filterMap frameDelta).flatten = s.content ∧
    ((respStreamEvents r reasoning_id).filterMap respDeltaOf).flatten = r.content ∧
    (∀ id created model u,
      (ChatCompletionResponse.new id created model s.content u).choices.map
          (fun ch => ch.message.content)
        = [some s.content]) := by
  refine ⟨fun cs => ⟨rfl, rfl⟩,
    fun cs t ht => tokenizeCore_shape cs [] (by simp) t ht,
    fun cs => tokenizeCore_chain cs [],
    ?_, ?_, fun id created model u => by simp [ChatCompletionResponse.new]⟩
  · have hfm : (chatStreamFrames s).filterMap frameDelta = tokenize s.content := by
      cases hu : s.usage <;>
        simp [chatStreamFrames, frameDelta, hu, ChatCompletionChunk.new,
          ChatCompletionChunk.with_role, ChatCompletionChunk.with_content,
          ChatCompletionChunk.with_finish, ChatCompletionChunk.with_usage,
          List.filterMap_map, Function.comp_def]
    rw [hfm, tokenize_join]
  · have hfm : (respStreamEvents r reasoning_id).filterMap respDeltaOf
        = respTokenize r.content := by
      simp [respStreamEvents, respDeltaOf, respDelta_msg_deltas,
        respReasoningEvents_no_delta, List.filterMap_append]
    rw [hfm]
    exact tokenize_join r.content

/-- Claim C3: every ChatStream frame sequence is exactly one role chunk
(delta with role assistant, no content, no finish reason) first, then one
content chunk per token of the tokenized content, then exactly one finish
chunk with empty delta and finish reason "stop" carrying the usage object
iff one was supplied, then exactly one terminal DONE frame with nothing
after it. -/
theorem chat_stream_frame_order (s : TokenStream) :
    (chatStreamFrames s).map frameKind
      = .role :: (List.replicate (tokenize s.content).length .content
          ++ [.finish, .done]) ∧
    (chatStreamFrames s).head?
      = some (.data ((ChatCompletionChunk.new s.id s.model s.created).with_role)) ∧
    (chatStreamFrames s).getLast? = some .done ∧
    (∃ fc : ChatCompletionChunk, SseFrame.data fc ∈ chatStreamFrames s ∧
      frameKind (.data fc) = .finish ∧
      fc.choices = [{ index := 0
                      delta := { role := none, content := none, tool_calls := none }
                      finish_reason := some (str "stop")
                      logprobs := none }] ∧
      fc.usage = s.usage) := by
  refine ⟨?_, ?_, ?_, ?_⟩
  · cases hu : s.usage <;>
      simp [chatStreamFrames, frameKind, hu, ChatCompletionChunk.new,
        ChatCompletionChunk.with_role, ChatCompletionChunk.with_content,
        ChatCompletionChunk.with_finish, ChatCompletionChunk.with_usage,
        List.map_map, Function.comp_def, List.map_const']
  · simp [chatStreamFrames]
  · rw [chatStreamFrames]
    exact List.getLast?_concat _
  · refine ⟨(match s.usage with
      | some u =>
        ((ChatCompletionChunk.new s.id s.model s.created).with_finish (str "stop")).with_usage u
      | none => (ChatCompletionChunk.new s.id s.model s.created).with_finish (str "stop")),
      ?_, ?_, ?_, ?_⟩ <;>
      cases hu : s.usage <;>
        simp [chatStreamFrames, frameKind, hu, ChatCompletionChunk.new,
          ChatCompletionChunk.with_role, ChatCompletionChunk.with_content,
          ChatCompletionChunk.with_finish, ChatCompletionChunk.with_usage]

/-- Claim C2: every ResponsesStream frame sequence has `response.created`
first and `response.completed` last; the sequence numbers on the reasoning
summary deltas and output text deltas come from one shared counter and form
the contiguous strictly increasing sequence 0, 1, 2, ...; all reasoning
frames (if any) precede the first message `output_item.added`; and the
message item is at output index 1 when reasoning is present, else 0. -/
theorem resp_stream_invariants (s : ResponsesTokenStream) (reasoning_id : List Char) :
    (∃ r0, (respStreamEvents s reasoning_id).head? = some (.response_created r0)) ∧
    (∃ rn, (respStreamEvents s reasoning_id).getLast? = some (.response_completed rn)) ∧
    (respStreamEvents s reasoning_id).filterMap seqNumOf
      = List.range ((summaryTokens s).length + (respTokenize s.content).length) ∧
    (∃ l₁ l₂, respStreamEvents s reasoning_id
        = l₁ ++ (RespEvent.output_item_added (if s.reasoning.isSome then 1 else 0)
            (.message s.message_id .assistant .inProgress []) :: l₂) ∧
      (∀ e ∈ l₁, ¬ IsMessageItemAdded e) ∧
      (∀ e ∈ l₂, ¬ IsReasoningEvent e)) := by
  refine ⟨⟨respInitialResponse s, by simp [respStreamEvents]⟩,
    ⟨respFinalResponse s reasoning_id, ?_⟩, ?_, ?_⟩
  · rw [respStreamEvents]
    exact List.getLast?_concat _
  · rw [← range'_zero_append]
    simp [respStreamEvents, seqNumOf, seq_msg_deltas,
      respReasoningEvents_seq, List.filterMap_append]
  · refine ⟨[.response_created (respInitialResponse s),
        .response_in_progress (respInitialResponse s)]
        ++ respReasoningEvents s reasoning_id,
      [.content_part_added (messageOutputIndex s) 0 (.outputText [])]
        ++ (numberFrom (summaryTokens s).length (respTokenize s.content)).map
            (fun p => .output_text_delta (messageOutputIndex s) 0 p.1 p.2)
        ++ [.output_text_done (messageOutputIndex s) 0 s.content,
            .content_part_done (messageOutputIndex s) 0 (.outputText s.content),
            .output_item_done (messageOutputIndex s) (respFinalMessage s),
            .response_completed (respFinalResponse s reasoning_id)],
      ?_, ?_, ?_⟩
    · simp [respStreamEvents, messageOutputIndex]
    · intro e he
      rcases List.mem_append.1 he with he | he
      · simp only [List.mem_cons, List.not_mem_nil, or_false] at he
        rcases he with rfl | rfl <;> simp [IsMessageItemAdded]
      · exact respReasoningEvents_no_msg_added s reasoning_id e he
    · intro e he
      rcases List.mem_append.1 he with he | he
      · rcases List.mem_append.1 he with he | he
        · simp only [List.mem_singleton] at he
          subst he
          simp [IsReasoningEvent]
        · exact no_reasoning_in_msg_deltas _ _ _ e he
      · simp only [List.mem_cons, List.not_mem_nil, or_false] at he
        rcases he with rfl | rfl | rfl | rfl <;>
          simp [IsReasoningEvent, respFinalMessage]

/-! Reasoning-token accounting (src/cli/handlers.rs) and tokenizer
selection (src/llmsim/src/tokens.rs). -/

/-- Model of Rust `str::contains` on our `List Char` strings: the needle
occurs as a contiguous substring of the haystack. -/
def isSubstring (needle : List Char) : List Char → Bool
  | [] => needle.isEmpty
  | c :: rest => needle.isPrefixOf (c :: rest) || isSubstring needle rest

lemma isSubstring_iff (needle : List Char) : ∀ hay : List Char,
    isSubstring needle hay = true ↔ ∃ u v, hay = u ++ needle ++ v := by
  intro hay
  induction hay with
  | nil =>
    simp only [isSubstring, List.isEmpty_iff]
    constructor
    · rintro rfl
      exact ⟨[], [], rfl⟩
    · rintro ⟨u, v, h⟩
      rcases List.append_eq_nil.1 h.symm with ⟨h1, h2⟩
      exact (List.append_eq_nil.1 h1).2
  | cons c rest ih =>
    simp only [isSubstring, Bool.or_eq_true, ih, List.isPrefixOf_iff_prefix]
    constructor
    · rintro (⟨t, ht⟩ | ⟨u, v, rfl⟩)
      · exact ⟨[], t, by simp [ht.symm]⟩
      · exact ⟨c :: u, v, by simp⟩
    · rintro ⟨u, v, huv⟩
      cases u with
      | nil =>
        exact Or.inl ⟨v, by simpa using huv.symm⟩
      | cons u0 us =>
        simp only [List.cons_append, List.cons_eq_cons] at huv
        exact Or.inr ⟨us, v, huv.2⟩

/-- `ReasoningConfig` from src/openai (effort and summary of the request's
`reasoning` object). -/
structure ReasoningConfig where
  effort : Option (List Char)
  summary : Option (List Char)
deriving DecidableEq

/-- `is_reasoning_model` (src/cli/handlers.rs lines 697-707): prefix o1, o3
or o4, substring -o1 or -o3, or prefix gpt-5. -/
def is_reasoning_model (model : List Char) : Bool :=
  ((str "o1").isPrefixOf model || (str "o3").isPrefixOf model ||
    (str "o4").isPrefixOf model ||
    isSubstring (str "-o1") model || isSubstring (str "-o3") model)
  || (str "gpt-5").isPrefixOf model

/-- The effort string resolved by `calculate_reasoning_tokens`:
`reasoning.as_ref().and_then(|r| r.effort.as_deref()).unwrap_or("medium")`. -/
def resolvedEffort (reasoning : Option ReasoningConfig) : List Char :=
  match reasoning.bind (fun r => r.effort) with
  | some e => e
  | none => str "medium"

/-- Twice the `f64` effort multiplier of `calculate_reasoning_tokens`
(src/cli/handlers.rs lines 729-737): the multipliers 0.0, 0.5, 1.5, 3.0,
6.0, 10.0 (default 3.0) are all exact multiples of 1/2, stored here as
their numerators over 2 so the computation stays in `Nat`. -/
def effortMultiplierNum2 (effort : List Char) : Nat :=
  if effort = str "none" then 0
  else if effort = str "minimal" then 1
  else if effort = str "low" then 3
  else if effort = str "medium" then 6
  else if effort = str "high" then 12
  else if effort = str "xhigh" then 20
  else 6

/-- `calculate_reasoning_tokens` (src/cli/handlers.rs lines 710-740):
0 for non-reasoning models, else `(output_tokens as f64 * multiplier) as
usize`. The f64 product of a `usize` below 2^52 with a multiple of 1/2 is
exact, and the `as usize` cast truncates toward zero, so the result is the
floor `output_tokens * num2 / 2` in natural division. -/
def calculate_reasoning_tokens (model : List Char) (reasoning : Option ReasoningConfig)
    (output_tokens : Nat) : Nat :=
  if is_reasoning_model model then
    output_tokens * effortMultiplierNum2 (resolvedEffort reasoning) / 2
  else 0

/-- Modelled from the spec: the effort multiplier table of section 4.7
(none 0.0, minimal 0.5, low 1.5, medium 3.0 (default), high 6.0,
xhigh 10.0), as an exact rational, for comparison with the code. -/
def spec_effort_multiplier (effort : List Char) : ℚ :=
  if effort = str "none" then 0
  else if effort = str "minimal" then 1/2
  else if effort = str "low" then 3/2
  else if effort = str "medium" then 3
  else if effort = str "high" then 6
  else if effort = str "xhigh" then 10
  else 3

lemma spec_effort_multiplier_eq (effort : List Char) :
    spec_effort_multiplier effort = (effortMultiplierNum2 effort : ℚ) / 2 := by
  unfold spec_effort_multiplier effortMultiplierNum2
  split_ifs <;> norm_num

/-- Claim C4 counterexample: for model o3 with effort minimal and one
completion token the code computes 0 reasoning tokens, while rounding
completion_tokens × M as the claim states would give round(0.5) = 1. -/
theorem reasoning_tokens_not_rounded :
    calculate_reasoning_tokens (str "o3")
        (some { effort := some (str "minimal"), summary := none }) 1 = 0 ∧
    round ((1 : ℚ) * spec_effort_multiplier (str "minimal")) = 1 := by
  constructor
  · decide
  · have h : spec_effort_multiplier (str "minimal") = 1/2 := by
      unfold spec_effort_multiplier
      rw [if_neg (by decide), if_pos rfl]
    rw [h]
    norm_num [round_eq]

/-- Claim C4 (amended): the model is classified as reasoning exactly when
its name starts with o1, o3, or o4, contains -o1 or -o3, or starts with
gpt-5; for a reasoning model the reasoning token count equals
completion_tokens × M truncated toward zero (floor), where M is 0.0 for
effort none, 0.5 for minimal, 1.5 for low, 3.0 for medium (the default when
no effort is given), 6.0 for high, and 10.0 for xhigh; for a non-reasoning
model it is 0. -/
theorem reasoning_tokens_amended (model : List Char)
    (reasoning : Option ReasoningConfig) (output_tokens : Nat) :
    (is_reasoning_model model = true ↔
      ((∃ t, model = str "o1" ++ t) ∨ (∃ t, model = str "o3" ++ t) ∨
        (∃ t, model = str "o4" ++ t) ∨
        (∃ u v, model = u ++ str "-o1" ++ v) ∨ (∃ u v, model = u ++ str "-o3" ++ v) ∨
        (∃ t, model = str "gpt-5" ++ t))) ∧
    calculate_reasoning_tokens model reasoning output_tokens
      = (if is_reasoning_model model then
          ⌊(output_tokens : ℚ) * spec_effort_multiplier (resolvedEffort reasoning)⌋₊
        else 0) := by
  constructor
  · have hp : ∀ pre : List Char, (pre.isPrefixOf model = true) ↔ ∃ t, model = pre ++ t := by
      intro pre
      rw [ List.isPrefixOf_iff_prefix]
      exact ⟨fun ⟨t, h⟩ => ⟨t, h.symm⟩, fun ⟨t, h⟩ => ⟨t, h.symm⟩⟩
    simp only [is_reasoning_model, Bool.or_eq_true, hp, isSubstring_iff, or_assoc]
  · unfold calculate_reasoning_tokens
    by_cases h : is_reasoning_model model
    · rw [if_pos h, if_pos h, spec_effort_multiplier_eq]
      have hcast : (output_tokens : ℚ) * ((effortMultiplierNum2 (resolvedEffort reasoning) : ℚ) / 2)
          = ((output_tokens * effortMultiplierNum2 (resolvedEffort reasoning) : ℕ) : ℚ) / 2 := by
        push_cast
        ring
      rw [hcast]
      rw [show ((2 : ℚ)) = ((2 : ℕ) : ℚ) by norm_num]
      rw [Nat.floor_div_nat, Nat.floor_natCast]
    · rw [if_neg h, if_neg h]

/-- The four BPE encodings selectable in src/llmsim/src/tokens.rs. -/
inductive Encoding
  | o200k
  | cl100k
  | p50k
  | r50k
deriving DecidableEq

/-- ASCII model of Rust `str::to_lowercase` as used on model names. -/
def rustToLowercase (model : List Char) : List Char := model.map Char.toLower

/-- `get_tokenizer_for_model` (src/llmsim/src/tokens.rs lines 14-52),
mapped onto the encoding it selects (the construction of the `CoreBPE`
itself lives in the external tiktoken-rs crate): lowercase the model name,
then test the four ordered groups, defaulting to cl100k. -/
def get_tokenizer_for_model (model : List Char) : Encoding :=
  let ml := rustToLowercase model
  if isSubstring (str "gpt-5") ml || isSubstring (str "gpt-4o") ml ||
      (str "o1").isPrefixOf ml || (str "o3").isPrefixOf ml ||
      isSubstring (str "chatgpt-4o") ml then .o200k
  else if isSubstring (str "gpt-4") ml || isSubstring (str "text-embedding") ml ||
      isSubstring (str "claude") ml || isSubstring (str "gemini") ml then .cl100k
  else if isSubstring (str "davinci") ml || isSubstring (str "code-") ml then .p50k
  else if isSubstring (str "ada") ml || isSubstring (str "babbage") ml ||
      isSubstring (str "curie") ml then .r50k
  else .cl100k

/-- Modelled from the spec: the encoding-selection table of section 4.1,
which lists prefix o4 in the o200k row alongside prefix o1 and o3 (the
CoreBPE construction itself is external). -/
def spec_encoding_for_model (model : List Char) : Encoding :=
  let ml := rustToLowercase model
  if isSubstring (str "gpt-5") ml || isSubstring (str "gpt-4o") ml ||
      isSubstring (str "chatgpt-4o") ml ||
      (str "o1").isPrefixOf ml || (str "o3").isPrefixOf ml ||
      (str "o4").isPrefixOf ml then .o200k
  else if isSubstring (str "gpt-4") ml || isSubstring (str "text-embedding") ml ||
      isSubstring (str "claude") ml || isSubstring (str "gemini") ml then .cl100k
  else if isSubstring (str "davinci") ml || isSubstring (str "code-") ml then .p50k
  else if isSubstring (str "ada") ml || isSubstring (str "babbage") ml ||
      isSubstring (str "curie") ml then .r50k
  else .cl100k

/-- Claim C5: the code's own comment ("o200k_base: GPT-5, GPT-4o, O-series
and newer models") and the spec table route prefix-o4 model names to the
o200k encoding, but `get_tokenizer_for_model` has no `starts_with("o4")`
test, so the model name o4-mini matches no group and falls through to the
cl100k default, diverging from the spec table at that input. -/
theorem tokenizer_selection_o4_divergence :
    get_tokenizer_for_model (str "o4-mini") = .cl100k ∧
    spec_encoding_for_model (str "o4-mini") = .o200k ∧
    get_tokenizer_for_model (str "o4-mini") ≠ spec_encoding_for_model (str "o4-mini") ∧
    get_tokenizer_for_model (str "o1-mini") = .o200k ∧
    get_tokenizer_for_model (str "o3") = .o200k ∧
    get_tokenizer_for_model (str "gpt-5-nano") = .o200k ∧
    get_tokenizer_for_model (str "chatgpt-4o-latest") = .o200k := by
  refine ⟨?_, ?_, ?_, ?_, ?_, ?_, ?_⟩ <;> decide

/-! Error injection (src/errors.rs). -/

/-- `ErrorConfig` (src/errors.rs): the configured rates (f64, modelled as
exact rationals) and the timeout dwell. -/
structure ErrorConfig where
  rate_limit_rate : ℚ
  server_error_rate : ℚ
  timeout_rate : ℚ
  timeout_after_ms : Nat
  invalid_request_rate : ℚ
  auth_error_rate : ℚ
deriving DecidableEq

/-- `SimulatedError` (src/errors.rs); the constant message of
`InvalidRequest` is omitted. -/
inductive SimulatedError
  | rateLimit (retry_after_seconds : Nat)
  | serverError
  | serviceUnavailable
  | timeout (after_ms : Nat)
  | invalidRequest
  | authenticationError
deriving DecidableEq

/-- Model of `rng.random_range(1..60)`: a uniform integer in the half-open
range [1, 60), obtained from an arbitrary natural by range reduction. -/
def randRange1to60 (u : Nat) : Nat := 1 + u % 59

/-- The running cumulative threshold after adding the rate-limit rate. -/
def thr1 (c : ErrorConfig) : ℚ := c.rate_limit_rate

/-- The cumulative threshold after adding the server-error rate. -/
def thr2 (c : ErrorConfig) : ℚ := thr1 c + c.server_error_rate

/-- The cumulative threshold after adding the timeout rate. -/
def thr3 (c : ErrorConfig) : ℚ := thr2 c + c.timeout_rate

/-- The cumulative threshold after adding the invalid-request rate. -/
def thr4 (c : ErrorConfig) : ℚ := thr3 c + c.invalid_request_rate

/-- The cumulative threshold after adding the auth-error rate. -/
def thr5 (c : ErrorConfig) : ℚ := thr4 c + c.auth_error_rate

/-- `ErrorInjector::maybe_inject` (src/errors.rs lines 185-233) as a
deterministic function of its random draws: `roll` is the single uniform
draw in [0,1), `server_pick_500` the `random_bool(0.7)` outcome that picks
500 over 503, and `retry_draw` the raw draw behind `random_range(1..60)`. -/
def maybe_inject (c : ErrorConfig) (roll : ℚ) (server_pick_500 : Bool)
    (retry_draw : Nat) : Option SimulatedError :=
  if roll < thr1 c then some (.rateLimit (randRange1to60 retry_draw))
  else if roll < thr2 c then
    some (if server_pick_500 then .serverError else .serviceUnavailable)
  else if roll < thr3 c then some (.timeout c.timeout_after_ms)
  else if roll < thr4 c then some .invalidRequest
  else if roll < thr5 c then some .authenticationError
  else none

/-- Claim C6: `maybe_inject` draws one uniform roll and checks cumulative
thresholds in the fixed order rate_limit, server_error (resolving to
ServerError on the 0.7 pick, else ServiceUnavailable), timeout,
invalid_request, auth_error, returning the first category whose cumulative
threshold exceeds the roll and none otherwise; hence the outcome regions
are disjoint half-open intervals (at most one error per call), a RateLimit
result carries retry_after_seconds in [1, 59], and when every rate is 0 the
result is always none. -/
theorem maybe_inject_first_threshold (c : ErrorConfig) (roll : ℚ)
    (server_pick_500 : Bool) (retry_draw : Nat) (h0 : 0 ≤ roll)
    (hrl : 0 ≤ c.rate_limit_rate) (hse : 0 ≤ c.server_error_rate)
    (hto : 0 ≤ c.timeout_rate) (hir : 0 ≤ c.invalid_request_rate)
    (hae : 0 ≤ c.auth_error_rate) :
    (roll < thr1 c →
      maybe_inject c roll server_pick_500 retry_draw
        = some (.rateLimit (randRange1to60 retry_draw))) ∧
    (thr1 c ≤ roll → roll < thr2 c →
      maybe_inject c roll server_pick_500 retry_draw
        = some (if server_pick_500 then .serverError else .serviceUnavailable)) ∧
    (thr2 c ≤ roll → roll < thr3 c →
      maybe_inject c roll server_pick_500 retry_draw
        = some (.timeout c.timeout_after_ms)) ∧
    (thr3 c ≤ roll → roll < thr4 c →
      maybe_inject c roll server_pick_500 retry_draw = some .invalidRequest) ∧
    (thr4 c ≤ roll → roll < thr5 c →
      maybe_inject c roll server_pick_500 retry_draw = some .authenticationError) ∧
    (thr5 c ≤ roll → maybe_inject c roll server_pick_500 retry_draw = none) ∧
    (∀ n, maybe_inject c roll server_pick_500 retry_draw = some (.rateLimit n) →
      1 ≤ n ∧ n ≤ 59) ∧
    ((c.rate_limit_rate = 0 ∧ c.server_error_rate = 0 ∧ c.timeout_rate = 0 ∧
        c.invalid_request_rate = 0 ∧ c.auth_error_rate = 0) →
      maybe_inject c roll server_pick_500 retry_draw = none) := by
  have hretry : 1 ≤ randRange1to60 retry_draw ∧ randRange1to60 retry_draw ≤ 59 := by
    unfold randRange1to60
    have := Nat.mod_lt retry_draw (show 0 < 59 by norm_num)
    omega
  refine ⟨?_, ?_, ?_, ?_, ?_, ?_, ?_, ?_⟩
  · intro h1
    rw [maybe_inject, if_pos h1]
  · intro hle hlt
    rw [maybe_inject, if_neg (not_lt.2 hle), if_pos hlt]
  · intro hle hlt
    rw [maybe_inject, if_neg (by unfold thr2 thr1 at *; intro hc; linarith),
      if_neg (not_lt.2 hle), if_pos hlt]
  · intro hle hlt
    rw [maybe_inject,
      if_neg (by unfold thr3 thr2 thr1 at *; intro hc; linarith),
      if_neg (by unfold thr3 thr2 at *; intro hc; linarith),
      if_neg (not_lt.2 hle), if_pos hlt]
  · intro hle hlt
    rw [maybe_inject,
      if_neg (by unfold thr4 thr3 thr2 thr1 at *; intro hc; linarith),
      if_neg (by unfold thr4 thr3 thr2 at *; intro hc; linarith),
      if_neg (by unfold thr4 thr3 at *; intro hc; linarith),
      if_neg (not_lt.2 hle), if_pos hlt]
  · intro h5
    rw [maybe_inject,
      if_neg (by unfold thr5 thr4 thr3 thr2 thr1 at *; intro hc; linarith),
      if_neg (by unfold thr5 thr4 thr3 thr2 at *; intro hc; linarith),
      if_neg (by unfold thr5 thr4 thr3 at *; intro hc; linarith),
      if_neg (by unfold thr5 thr4 at *; intro hc; linarith),
      if_neg (not_lt.2 h5)]
  · intro n hn
    rw [maybe_inject] at hn
    split_ifs at hn <;> simp_all
  · rintro ⟨z1, z2, z3, z4, z5⟩
    have h5 : thr5 c ≤ roll := by
      unfold thr5 thr4 thr3 thr2 thr1
      rw [z1, z2, z3, z4, z5]
      simpa using h0
    rw [maybe_inject,
      if_neg (by unfold thr5 thr4 thr3 thr2 thr1 at *; intro hc; linarith),
      if_neg (by unfold thr5 thr4 thr3 thr2 at *; intro hc; linarith),
      if_neg (by unfold thr5 thr4 thr3 at *; intro hc; linarith),
      if_neg (by unfold thr5 thr4 at *; intro hc; linarith),
      if_neg (not_lt.2 h5)]

/-- A concrete error configuration used to witness the injection theorem. -/
def chaosLikeConfig : ErrorConfig :=
  { rate_limit_rate := 1/2
    server_error_rate := 1/4
    timeout_rate := 1/8
    timeout_after_ms := 5000
    invalid_request_rate := 1/16
    auth_error_rate := 1/32 }

/-- Witness for the injection theorem at a concrete configuration, roll,
pick and retry draw. -/
theorem maybe_inject_first_threshold_witness :
    ((0 : ℚ) ≤ 1/4) ∧ (0 ≤ chaosLikeConfig.rate_limit_rate) ∧
    (0 ≤ chaosLikeConfig.server_error_rate) ∧ (0 ≤ chaosLikeConfig.timeout_rate) ∧
    (0 ≤ chaosLikeConfig.invalid_request_rate) ∧ (0 ≤ chaosLikeConfig.auth_error_rate) ∧
    (((1 : ℚ)/4 < thr1 chaosLikeConfig →
      maybe_inject chaosLikeConfig (1/4) true 7
        = some (.rateLimit (randRange1to60 7))) ∧
    (thr1 chaosLikeConfig ≤ 1/4 → (1 : ℚ)/4 < thr2 chaosLikeConfig →
      maybe_inject chaosLikeConfig (1/4) true 7
        = some (if true then .serverError else .serviceUnavailable)) ∧
    (thr2 chaosLikeConfig ≤ 1/4 → (1 : ℚ)/4 < thr3 chaosLikeConfig →
      maybe_inject chaosLikeConfig (1/4) true 7
        = some (.timeout chaosLikeConfig.timeout_after_ms)) ∧
    (thr3 chaosLikeConfig ≤ 1/4 → (1 : ℚ)/4 < thr4 chaosLikeConfig →
      maybe_inject chaosLikeConfig (1/4) true 7 = some .invalidRequest) ∧
    (thr4 chaosLikeConfig ≤ 1/4 → (1 : ℚ)/4 < thr5 chaosLikeConfig →
      maybe_inject chaosLikeConfig (1/4) true 7 = some .authenticationError) ∧
    (thr5 chaosLikeConfig ≤ 1/4 → maybe_inject chaosLikeConfig (1/4) true 7 = none) ∧
    (∀ n, maybe_inject chaosLikeConfig (1/4) true 7 = some (.rateLimit n) →
      1 ≤ n ∧ n ≤ 59) ∧
    ((chaosLikeConfig.rate_limit_rate = 0 ∧ chaosLikeConfig.server_error_rate = 0 ∧
        chaosLikeConfig.timeout_rate = 0 ∧ chaosLikeConfig.invalid_request_rate = 0 ∧
        chaosLikeConfig.auth_error_rate = 0) →
      maybe_inject chaosLikeConfig (1/4) true 7 = none)) :=
  ⟨by norm_num, by norm_num [chaosLikeConfig], by norm_num [chaosLikeConfig],
    by norm_num [chaosLikeConfig], by norm_num [chaosLikeConfig],
    by norm_num [chaosLikeConfig],
    maybe_inject_first_threshold chaosLikeConfig (1/4) true 7 (by norm_num)
      (by norm_num [chaosLikeConfig]) (by norm_num [chaosLikeConfig])
      (by norm_num [chaosLikeConfig]) (by norm_num [chaosLikeConfig])
      (by norm_num [chaosLikeConfig])⟩

/-! Latency profiles (src/latency.rs). -/

/-- `LatencyProfile` (src/latency.rs): TTFT and TBT mean/stddev in ms. -/
structure LatencyProfile where
  ttft_mean_ms : Nat
  ttft_stddev_ms : Nat
  tbt_mean_ms : Nat
  tbt_stddev_ms : Nat
deriving DecidableEq

/-- `LatencyProfile::instant` (all zeros). -/
def LatencyProfile.instant : LatencyProfile :=
  { ttft_mean_ms := 0, ttft_stddev_ms := 0, tbt_mean_ms := 0, tbt_stddev_ms := 0 }

/-- The sampling rule shared by `sample_ttft` and `sample_tbt`
(src/latency.rs lines 183-218), as a function of the normal draw: zero when
the mean is 0; when the stddev is positive, `normal.sample().max(1.0) as
u64`, i.e. the draw floored at 1 with fractional milliseconds truncated
(`Nat.floor` of the max); otherwise exactly the mean. -/
def sampleDelayMs (mean stddev : Nat) (draw : ℚ) : Nat :=
  if mean = 0 then 0
  else if 0 < stddev then ⌊max draw 1⌋₊
  else mean

/-- `LatencyProfile::sample_ttft`. -/
def LatencyProfile.sample_ttft (p : LatencyProfile) (draw : ℚ) : Nat :=
  sampleDelayMs p.ttft_mean_ms p.ttft_stddev_ms draw

/-- `LatencyProfile::sample_tbt`. -/
def LatencyProfile.sample_tbt (p : LatencyProfile) (draw : ℚ) : Nat :=
  sampleDelayMs p.tbt_mean_ms p.tbt_stddev_ms draw

/-- Claim C7: both samplers obey one rule parameterized by the
corresponding mean/stddev pair: mean 0 gives exactly zero (so the instant
preset never yields a positive duration); stddev 0 with positive mean gives
exactly the mean in milliseconds; otherwise the normal draw is floored at 1
ms and fractional milliseconds are truncated, so every sample with positive
mean is at least 1 ms. -/
theorem latency_sampling_rule (p : LatencyProfile) (draw : ℚ) :
    (p.ttft_mean_ms = 0 → p.sample_ttft draw = 0) ∧
    (p.tbt_mean_ms = 0 → p.sample_tbt draw = 0) ∧
    (p.ttft_stddev_ms = 0 → 0 < p.ttft_mean_ms →
      p.sample_ttft draw = p.ttft_mean_ms) ∧
    (p.tbt_stddev_ms = 0 → 0 < p.tbt_mean_ms →
      p.sample_tbt draw = p.tbt_mean_ms) ∧
    (0 < p.ttft_stddev_ms → 0 < p.ttft_mean_ms →
      p.sample_ttft draw = ⌊max draw 1⌋₊) ∧
    (0 < p.tbt_stddev_ms → 0 < p.tbt_mean_ms →
      p.sample_tbt draw = ⌊max draw 1⌋₊) ∧
    (0 < p.ttft_mean_ms → 1 ≤ p.sample_ttft draw) ∧
    (0 < p.tbt_mean_ms → 1 ≤ p.sample_tbt draw) ∧
    LatencyProfile.instant.sample_ttft draw = 0 ∧
    LatencyProfile.instant.sample_tbt draw = 0 := by
  have hfloor : 1 ≤ ⌊max draw 1⌋₊ := by
    have h1 : (1 : ℚ) ≤ max draw 1 := le_max_right draw 1
    exact Nat.le_floor (by exact_mod_cast h1)
  have hrule : ∀ mean stddev, (mean = 0 → sampleDelayMs mean stddev draw = 0) ∧
      (stddev = 0 → 0 < mean → sampleDelayMs mean stddev draw = mean) ∧
      (0 < stddev → 0 < mean → sampleDelayMs mean stddev draw = ⌊max draw 1⌋₊) ∧
      (0 < mean → 1 ≤ sampleDelayMs mean stddev draw) := by
    intro mean stddev
    refine ⟨fun h0 => by simp [sampleDelayMs, h0], fun hs hm => ?_, fun hs hm => ?_, fun hm => ?_⟩
    · rw [sampleDelayMs, if_neg (Nat.pos_iff_ne_zero.1 hm), if_neg (by omega)]
    · rw [sampleDelayMs, if_neg (Nat.pos_iff_ne_zero.1 hm), if_pos hs]
    · rw [sampleDelayMs, if_neg (Nat.pos_iff_ne_zero.1 hm)]
      by_cases hs : 0 < stddev
      · rw [if_pos hs]
        exact hfloor
      · rw [if_neg hs]
        exact hm
  exact ⟨(hrule _ _).1, (hrule _ _).1, (hrule _ _).2.1, (hrule _ _).2.1,
    (hrule _ _).2.2.1, (hrule _ _).2.2.1, (hrule _ _).2.2.2, (hrule _ _).2.2.2,
    (hrule 0 0).1 rfl, (hrule 0 0).1 rfl⟩

/-- Witness for the latency sampling rule at a concrete profile and draw:
TTFT mean 50 and stddev 15 with draw 0.3 floors to 1 ms; TBT mean 40 and
stddev 0 gives exactly 40 ms; the instant preset gives 0. -/
theorem latency_sampling_rule_witness :
    ((0 : Nat) < 15) ∧ ((0 : Nat) < 50) ∧ ((0 : Nat) < 40) ∧
    LatencyProfile.sample_ttft ⟨50, 15, 40, 0⟩ (3/10) = 1 ∧
    LatencyProfile.sample_tbt ⟨50, 15, 40, 0⟩ (3/10) = 40 ∧
    1 ≤ LatencyProfile.sample_ttft ⟨50, 15, 40, 0⟩ (3/10) ∧
    LatencyProfile.instant.sample_ttft (3/10) = 0 := by
  have h := latency_sampling_rule ⟨50, 15, 40, 0⟩ (3/10)
  refine ⟨by norm_num, by norm_num, by norm_num, ?_,
    h.2.2.2.1 rfl (by norm_num), h.2.2.2.2.2.2.1 (by norm_num),
    (latency_sampling_rule LatencyProfile.instant (3/10)).1 rfl⟩
  rw [h.2.2.2.2.1 (by norm_num) (by norm_num),
    max_eq_right (by norm_num : (3 : ℚ)/10 ≤ 1)]
  simp

/-! Request token accounting (src/cli/handlers.rs). -/

/-- `count_request_tokens` (src/cli/handlers.rs lines 743-756), as a
function of the token counter `tc` (the external tiktoken-based
`count_tokens_default`, with its whitespace-count fallback, passed as a
parameter): each message is an optional content string; per message the
content tokens (when present) and 4 formatting-overhead tokens are added,
and a final request overhead of 3 is added once. -/
def count_request_tokens (tc : List Char → Nat)
    (messages : List (Option (List Char))) : Nat :=
  (messages.foldl (fun total m =>
    (match m with
      | some content => total + tc content
      | none => total) + 4) 0) + 3

/-- The usage object built by the chat pipeline (src/cli/handlers.rs lines
107-115): prompt tokens from the request, completion tokens from the
generated content, and their sum as the total. -/
def chatUsage (tc : List Char → Nat) (messages : List (Option (List Char)))
    (content : List Char) : Usage :=
  { prompt_tokens := count_request_tokens tc messages
    completion_tokens := tc content
    total_tokens := count_request_tokens tc messages + tc content }

lemma count_request_tokens_foldl (tc : List Char → Nat)
    (messages : List (Option (List Char))) : ∀ a : Nat,
    messages.foldl (fun total m =>
      (match m with
        | some content => total + tc content
        | none => total) + 4) a
      = a + (messages.map (fun m => (match m with
          | some content => tc content
          | none => 0) + 4)).sum := by
  induction messages with
  | nil => intro a; simp
  | cons m rest ih =>
    intro a
    cases m <;> simp [List.foldl_cons, ih] <;> ring

/-- Claim C8: the chat pipeline's prompt token count equals the sum over
all messages of the message content's token count plus 4 formatting tokens,
plus a single request overhead of 3; for one user message "Hello!" this is
count("Hello!") + 4 + 3; and completion tokens equal the token count of the
generated content string. -/
theorem prompt_token_accounting (tc : List Char → Nat)
    (messages : List (Option (List Char))) (content : List Char) :
    count_request_tokens tc messages
      = (messages.map (fun m => (match m with
          | some c => tc c
          | none => 0) + 4)).sum + 3 ∧
    (chatUsage tc messages content).prompt_tokens = count_request_tokens tc messages ∧
    (chatUsage tc messages content).completion_tokens = tc content ∧
    count_request_tokens tc [some (str "Hello!")] = tc (str "Hello!") + 4 + 3 := by
  refine ⟨?_, rfl, rfl, ?_⟩
  · rw [count_request_tokens, count_request_tokens_foldl]
    simp
  · rw [count_request_tokens, count_request_tokens_foldl]
    simp

/-! Statistics aggregator (src/stats.rs). The concurrent atomics are
modelled as plain fields updated by sequential operations: the claims under
verification concern per-operation effects and sequentially reachable
states. Timestamps (`Instant`) are rationals in seconds. The per-model map
is not modelled; no claim mentions it. -/

/-- The `u64::MAX` sentinel used for the minimum-latency slot. -/
def U64MAX : Nat := 2 ^ 64 - 1

/-- Wraparound of `fetch_sub(1)` on a `u64`, used for the active-requests
decrement, which is the one counter the handlers decrement: 0 wraps to
`u64::MAX`, any other value decrements (on the u64 domain this agrees with
`(n + 2^64 - 1) % 2^64`). -/
def wrapDec (n : Nat) : Nat := if n = 0 then U64MAX else n - 1

/-- `EndpointType` (src/stats.rs). -/
inductive EndpointType
  | chatCompletions
  | responses
deriving DecidableEq

/-- The counter state of `Stats` (src/stats.rs). Monotone counters are
`Nat` (the spec scopes out overflow: "integer overflow not required; 64-bit
is sufficient"); the min-latency slot keeps its `u64::MAX` sentinel. -/
structure Stats where
  total_requests : Nat
  active_requests : Nat
  streaming_requests : Nat
  non_streaming_requests : Nat
  completions_requests : Nat
  responses_requests : Nat
  prompt_tokens : Nat
  completion_tokens : Nat
  total_errors : Nat
  rate_limit_errors : Nat
  server_errors : Nat
  timeout_errors : Nat
  total_latency_us : Nat
  completed_requests : Nat
  min_latency_us : Nat
  max_latency_us : Nat
  request_times : List ℚ
deriving DecidableEq

/-- `Stats::new`: all counters zero, min-latency at the sentinel, empty
rolling window. -/
def Stats.new : Stats :=
  { total_requests := 0
    active_requests := 0
    streaming_requests := 0
    non_streaming_requests := 0
    completions_requests := 0
    responses_requests := 0
    prompt_tokens := 0
    completion_tokens := 0
    total_errors := 0
    rate_limit_errors := 0
    server_errors := 0
    timeout_errors := 0
    total_latency_us := 0
    completed_requests := 0
    min_latency_us := U64MAX
    max_latency_us := 0
    request_times := [] }

/-- `Stats::record_request_start` (src/stats.rs lines 109-141): bump the
totals, the streaming-or-not counter and the endpoint counter, append the
current instant to the rolling window and evict entries older than 60 s. -/
def Stats.record_request_start (s : Stats) (is_streaming : Bool)
    (endpoint : EndpointType) (now : ℚ) : Stats :=
  { s with
    total_requests := s.total_requests + 1
    active_requests := s.active_requests + 1
    streaming_requests :=
      if is_streaming then s.streaming_requests + 1 else s.streaming_requests
    non_streaming_requests :=
      if is_streaming then s.non_streaming_requests else s.non_streaming_requests + 1
    completions_requests :=
      match endpoint with
      | .chatCompletions => s.completions_requests + 1
      | .responses => s.completions_requests
    responses_requests :=
      match endpoint with
      | .chatCompletions => s.responses_requests
      | .responses => s.responses_requests + 1
    request_times := (s.request_times ++ [now]).filter (fun t => now - 60 < t) }

/-- `Stats::record_request_end` (src/stats.rs lines 144-189): decrement
active, bump completed and the token totals, add the latency to the sum,
and update the min/max slots (the single-threaded effect of the CAS
loops). -/
def Stats.record_request_end (s : Stats) (latency_us prompt completion : Nat) : Stats :=
  { s with
    active_requests := wrapDec s.active_requests
    completed_requests := s.completed_requests + 1
    prompt_tokens := s.prompt_tokens + prompt
    completion_tokens := s.completion_tokens + completion
    total_latency_us := s.total_latency_us + latency_us
    min_latency_us :=
      if latency_us < s.min_latency_us then latency_us else s.min_latency_us
    max_latency_us :=
      if latency_us > s.max_latency_us then latency_us else s.max_latency_us }

/-- `Stats::record_error` (src/stats.rs lines 192-208): bump total errors,
decrement active, and bump the matching kind counter: 429 the rate-limit
counter, 500 or 503 the server counter, 504 the timeout counter, any other
status none. -/
def Stats.record_error (s : Stats) (status_code : Nat) : Stats :=
  { s with
    total_errors := s.total_errors + 1
    active_requests := wrapDec s.active_requests
    rate_limit_errors :=
      if status_code = 429 then s.rate_limit_errors + 1 else s.rate_limit_errors
    server_errors :=
      if status_code = 500 ∨ status_code = 503 then s.server_errors + 1
      else s.server_errors
    timeout_errors :=
      if status_code = 504 then s.timeout_errors + 1 else s.timeout_errors }

/-- `Stats::avg_latency_ms` (src/stats.rs lines 239-246): 0 when nothing
completed, else the latency sum over the completed count, in ms. -/
def Stats.avg_latency_ms (s : Stats) : ℚ :=
  if s.completed_requests = 0 then 0
  else ((s.total_latency_us : ℚ) / (s.completed_requests : ℚ)) / 1000

/-- `Stats::min_latency_ms` (src/stats.rs lines 249-256): none while the
slot still holds the `u64::MAX` sentinel. -/
def Stats.min_latency_ms (s : Stats) : Option ℚ :=
  if s.min_latency_us = U64MAX then none
  else some ((s.min_latency_us : ℚ) / 1000)

/-- `Stats::max_latency_ms` (src/stats.rs lines 259-266): none while the
stored maximum is 0. -/
def Stats.max_latency_ms (s : Stats) : Option ℚ :=
  if s.max_latency_us = 0 then none
  else some ((s.max_latency_us : ℚ) / 1000)

/-- The minimum of a list of rationals, as `Iterator::min` returns it. -/
def listMinQ : List ℚ → Option ℚ
  | [] => none
  | a :: as =>
    match listMinQ as with
    | none => some a
    | some m => some (min a m)

/-- `Stats::requests_per_second` (src/stats.rs lines 216-236): count the
window entries newer than 60 s before `now`; 0 when there are none; else
divide the count by the span from the oldest such entry to `now`, falling
back to 0 when that span is not positive. -/
def Stats.requests_per_second (s : Stats) (now : ℚ) : ℚ :=
  let recent := s.request_times.filter (fun t => now - 60 < t)
  if recent.length = 0 then 0
  else
    match listMinQ recent with
    | some oldest => if 0 < now - oldest then (recent.length : ℚ) / (now - oldest) else 0
    | none => 0

/-- One recorded operation against the shared stats. -/
inductive StatsOp
  | start (is_streaming : Bool) (endpoint : EndpointType) (now : ℚ)
  | finish (latency_us prompt completion : Nat)
  | error (status_code : Nat)

/-- Apply one operation to a stats state. -/
def StatsOp.apply (s : Stats) : StatsOp → Stats
  | .start b e now => s.record_request_start b e now
  | .finish l p c => s.record_request_end l p c
  | .error code => s.record_error code

/-- Run a sequence of operations from the freshly created state. -/
def runStats (ops : List StatsOp) : Stats := ops.foldl StatsOp.apply Stats.new

/-- Whether an operation is a `record_request_end`. -/
def isFinishOp : StatsOp → Bool
  | .finish _ _ _ => true
  | _ => false

/-- Whether an operation is a `record_error`. -/
def isErrorOp : StatsOp → Bool
  | .error _ => true
  | _ => false

/-- Whether an operation is a `record_error` with a status that bumps no
kind counter (anything other than 429, 500, 503, 504 — in particular the
injected 400 and 401). -/
def isUnmatchedErrorOp : StatsOp → Bool
  | .error code =>
    if code = 429 ∨ code = 500 ∨ code = 503 ∨ code = 504 then false else true
  | _ => false

/-- Whether an operation is a `record_error` with status 429. -/
def is429Op : StatsOp → Bool
  | .error code => decide (code = 429)
  | _ => false

/-- Whether an operation is a `record_error` with status 500 or 503. -/
def isServerStatusOp : StatsOp → Bool
  | .error code => decide (code = 500 ∨ code = 503)
  | _ => false

/-- Whether an operation is a `record_error` with status 504. -/
def is504Op : StatsOp → Bool
  | .error code => decide (code = 504)
  | _ => false

lemma run_min_no_finish (ops : List StatsOp) : ∀ s : Stats,
    (∀ op ∈ ops, isFinishOp op = false) →
    (ops.foldl StatsOp.apply s).min_latency_us = s.min_latency_us := by
  induction ops with
  | nil => intro s _; rfl
  | cons op rest ih =>
    intro s h
    have hop := h op (by simp)
    have hrest : ∀ op ∈ rest, isFinishOp op = false := fun o ho => h o (by simp [ho])
    rcases op with ⟨b, e, now⟩ | ⟨l, p, c⟩ | ⟨code⟩
    · rw [List.foldl_cons, ih _ hrest]
      simp [StatsOp.apply, Stats.record_request_start]
    · simp [isFinishOp] at hop
    · rw [List.foldl_cons, ih _ hrest]
      simp [StatsOp.apply, Stats.record_error]

lemma run_total_errors (ops : List StatsOp) : ∀ s : Stats,
    (ops.foldl StatsOp.apply s).total_errors
      = s.total_errors + ops.countP isErrorOp := by
  induction ops with
  | nil => intro s; simp
  | cons op rest ih =>
    intro s
    rcases op with ⟨b, e, now⟩ | ⟨l, p, c⟩ | ⟨code⟩ <;>
      simp only [List.foldl_cons, List.countP_cons, StatsOp.apply, ih,
        Stats.record_request_start, Stats.record_request_end, Stats.record_error,
        isErrorOp] <;>
      simp <;> omega

lemma run_rate_limit_errors (ops : List StatsOp) : ∀ s : Stats,
    (ops.foldl StatsOp.apply s).rate_limit_errors
      = s.rate_limit_errors + ops.countP is429Op := by
  induction ops with
  | nil => intro s; simp
  | cons op rest ih =>
    intro s
    rcases op with ⟨b, e, now⟩ | ⟨l, p, c⟩ | ⟨code⟩ <;>
      simp only [List.foldl_cons, List.countP_cons, StatsOp.apply, ih,
        Stats.record_request_start, Stats.record_request_end, Stats.record_error,
        is429Op] <;>
      first
      | (simp <;> omega)
      | (by_cases hc : code = 429 <;> simp [hc] <;> omega)

lemma run_server_errors (ops : List StatsOp) : ∀ s : Stats,
    (ops.foldl StatsOp.apply s).server_errors
      = s.server_errors + ops.countP isServerStatusOp := by
  induction ops with
  | nil => intro s; simp
  | cons op rest ih =>
    intro s
    rcases op with ⟨b, e, now⟩ | ⟨l, p, c⟩ | ⟨code⟩ <;>
      simp only [List.foldl_cons, List.countP_cons, StatsOp.apply, ih,
        Stats.record_request_start, Stats.record_request_end, Stats.record_error,
        isServerStatusOp] <;>
      first
      | (simp <;> omega)
      | (by_cases hc : code = 500 ∨ code = 503 <;> simp [hc] <;> omega)

lemma run_timeout_errors (ops : List StatsOp) : ∀ s : Stats,
    (ops.foldl StatsOp.apply s).timeout_errors
      = s.timeout_errors + ops.countP is504Op := by
  induction ops with
  | nil => intro s; simp
  | cons op rest ih =>
    intro s
    rcases op with ⟨b, e, now⟩ | ⟨l, p, c⟩ | ⟨code⟩ <;>
      simp only [List.foldl_cons, List.countP_cons, StatsOp.apply, ih,
        Stats.record_request_start, Stats.record_request_end, Stats.record_error,
        is504Op] <;>
      first
      | (simp <;> omega)
      | (by_cases hc : code = 504 <;> simp [hc] <;> omega)

lemma countP_error_partition (ops : List StatsOp) :
    ops.countP is429Op + ops.countP isServerStatusOp + ops.countP is504Op
      + ops.countP isUnmatchedErrorOp = ops.countP isErrorOp := by
  induction ops with
  | nil => simp
  | cons op rest ih =>
    rcases op with ⟨b, e, now⟩ | ⟨l, p, c⟩ | ⟨code⟩ <;>
      simp only [List.countP_cons, is429Op, isServerStatusOp, is504Op,
        isUnmatchedErrorOp, isErrorOp]
    · simpa using ih
    · simpa using ih
    · by_cases h1 : code = 429 <;> by_cases h2 : code = 500 ∨ code = 503 <;>
        by_cases h3 : code = 504 <;>
          simp [h1, h2, h3] <;> omega

/-- Claim C9: the snapshot's derived metrics are total on the empty state:
avg_latency_ms is 0 when no request has completed (the division is
guarded); min_latency_ms is none until the first record_request_end (the
u64::MAX sentinel survives every other operation); max_latency_ms is none
while the stored maximum is 0; and requests_per_second is 0 when the
rolling window is empty or has zero span. -/
theorem stats_derived_metrics_total (s : Stats) (now : ℚ) (ops : List StatsOp) :
    (s.completed_requests = 0 → s.avg_latency_ms = 0) ∧
    Stats.new.min_latency_ms = none ∧
    ((∀ op ∈ ops, isFinishOp op = false) → (runStats ops).min_latency_ms = none) ∧
    (s.max_latency_us = 0 → s.max_latency_ms = none) ∧
    Stats.new.max_latency_ms = none ∧
    (s.request_times.filter (fun t => now - 60 < t) = [] →
      s.requests_per_second now = 0) ∧
    (∀ m, listMinQ (s.request_times.filter (fun t => now - 60 < t)) = some m →
      now ≤ m → s.requests_per_second now = 0) := by
  refine ⟨?_, ?_, ?_, ?_, ?_, ?_, ?_⟩
  · intro h
    rw [Stats.avg_latency_ms, if_pos h]
  · simp [Stats.min_latency_ms, Stats.new]
  · intro h
    rw [Stats.min_latency_ms, runStats, run_min_no_finish ops Stats.new h]
    simp [Stats.new]
  · intro h
    simp [Stats.max_latency_ms, h]
  · simp [Stats.max_latency_ms, Stats.new]
  · intro h
    simp [Stats.requests_per_second, h]
  · intro m hm hle
    have hnot : ¬(0 < now - m) := by linarith
    simp only [Stats.requests_per_second]
    by_cases hlen : (s.request_times.filter (fun t => now - 60 < t)).length = 0
    · rw [if_pos hlen]
    · rw [if_neg hlen, hm]
      simp [hnot]

/-- Witness for the derived-metric guards at the fresh state, a window that
contains only the instant `now` itself (zero span), and an operation list
with no record_request_end. -/
theorem stats_derived_metrics_total_witness :
    (Stats.new.completed_requests = 0 ∧ Stats.new.avg_latency_ms = 0) ∧
    ((∀ op ∈ [StatsOp.start true .chatCompletions 5, StatsOp.error 400],
        isFinishOp op = false) ∧
      (runStats [StatsOp.start true .chatCompletions 5, StatsOp.error 400]).min_latency_ms
        = none) ∧
    (listMinQ (((Stats.new.record_request_start true .chatCompletions 5).request_times).filter
        (fun t => (5 : ℚ) - 60 < t)) = some 5 ∧
      (Stats.new.record_request_start true .chatCompletions 5).requests_per_second 5 = 0) := by
  have h1 := stats_derived_metrics_total Stats.new 5
    [StatsOp.start true .chatCompletions 5, StatsOp.error 400]
  have h2 := stats_derived_metrics_total
    (Stats.new.record_request_start true .chatCompletions 5) 5 []
  have hops : ∀ op ∈ [StatsOp.start true .chatCompletions 5, StatsOp.error 400],
      isFinishOp op = false := by
    intro op hop
    simp only [List.mem_cons, List.not_mem_nil, or_false] at hop
    rcases hop with rfl | rfl <;> rfl
  have hwin : listMinQ (((Stats.new.record_request_start true .chatCompletions 5).request_times).filter
      (fun t => (5 : ℚ) - 60 < t)) = some 5 := by
    simp [Stats.record_request_start, Stats.new, listMinQ]
  exact ⟨⟨rfl, h1.1 rfl⟩, ⟨hops, h1.2.2.1 hops⟩,
    ⟨hwin, h2.2.2.2.2.2.2 5 hwin (le_refl 5)⟩⟩

/-- Claim C10: record_error increments total_errors and decrements
active_requests for every status code, but bumps a kind counter only for
429 (rate_limit_errors), 500 or 503 (server_errors), and 504
(timeout_errors); injected 400 and 401 errors bump no kind counter, so
after any sequence of operations rate_limit_errors + server_errors +
timeout_errors ≤ total_errors, with strict inequality once a 400 or 401
error is recorded. -/
theorem record_error_kind_accounting (s : Stats) (code : Nat) (ops : List StatsOp)
    (h1 : 1 ≤ s.active_requests) (h2 : s.active_requests < 2 ^ 64) :
    (s.record_error code).total_errors = s.total_errors + 1 ∧
    (s.record_error code).active_requests = s.active_requests - 1 ∧
    ((s.record_error code).rate_limit_errors
      = if code = 429 then s.rate_limit_errors + 1 else s.rate_limit_errors) ∧
    ((s.record_error code).server_errors
      = if code = 500 ∨ code = 503 then s.server_errors + 1 else s.server_errors) ∧
    ((s.record_error code).timeout_errors
      = if code = 504 then s.timeout_errors + 1 else s.timeout_errors) ∧
    ((code = 400 ∨ code = 401) →
      (s.record_error code).rate_limit_errors = s.rate_limit_errors ∧
      (s.record_error code).server_errors = s.server_errors ∧
      (s.record_error code).timeout_errors = s.timeout_errors) ∧
    ((runStats ops).rate_limit_errors + (runStats ops).server_errors
        + (runStats ops).timeout_errors + ops.countP isUnmatchedErrorOp
      = (runStats ops).total_errors) ∧
    ((runStats ops).rate_limit_errors + (runStats ops).server_errors
        + (runStats ops).timeout_errors ≤ (runStats ops).total_errors) ∧
    (∀ code', (code' = 400 ∨ code' = 401) → StatsOp.error code' ∈ ops →
      (runStats ops).rate_limit_errors + (runStats ops).server_errors
          + (runStats ops).timeout_errors < (runStats ops).total_errors) := by
  have hrun : (runStats ops).rate_limit_errors + (runStats ops).server_errors
      + (runStats ops).timeout_errors + ops.countP isUnmatchedErrorOp
      = (runStats ops).total_errors := by
    rw [runStats, run_total_errors, run_rate_limit_errors, run_server_errors,
      run_timeout_errors]
    have := countP_error_partition ops
    simp [Stats.new]
    omega
  refine ⟨rfl, ?_, rfl, rfl, rfl, ?_, hrun, by omega, ?_⟩
  · show wrapDec s.active_requests = s.active_requests - 1
    rw [wrapDec, if_neg (by omega)]
  · rintro (rfl | rfl) <;>
      exact ⟨rfl, rfl, rfl⟩
  · intro code' hcode hmem
    have hpos : 0 < ops.countP isUnmatchedErrorOp := by
      rw [List.countP_pos]
      refine ⟨StatsOp.error code', hmem, ?_⟩
      rcases hcode with rfl | rfl <;> rfl
    omega

/-- Witness for the error-kind accounting at a concrete state with one
active request, a 400 error, and a one-operation history recording that
400 error. -/
theorem record_error_kind_accounting_witness :
    (1 ≤ (Stats.new.record_request_start false .chatCompletions 0).active_requests) ∧
    ((Stats.new.record_request_start false .chatCompletions 0).active_requests < 2 ^ 64) ∧
    ((Stats.new.record_request_start false .chatCompletions 0).record_error 400).total_errors
      = (Stats.new.record_request_start false .chatCompletions 0).total_errors + 1 ∧
    ((Stats.new.record_request_start false .chatCompletions 0).record_error 400).active_requests
      = (Stats.new.record_request_start false .chatCompletions 0).active_requests - 1 ∧
    ((Stats.new.record_request_start false .chatCompletions 0).record_error 400).rate_limit_errors
      = (Stats.new.record_request_start false .chatCompletions 0).rate_limit_errors ∧
    (runStats [StatsOp.error 400]).rate_limit_errors
        + (runStats [StatsOp.error 400]).server_errors
        + (runStats [StatsOp.error 400]).timeout_errors
      < (runStats [StatsOp.error 400]).total_errors := by
  have ha : (Stats.new.record_request_start false .chatCompletions 0).active_requests = 1 := rfl
  have h := record_error_kind_accounting
    (Stats.new.record_request_start false .chatCompletions 0) 400 [StatsOp.error 400]
    (by rw [ha]) (by rw [ha]; norm_num)
  exact ⟨by rw [ha], by rw [ha]; norm_num, h.1, h.2.1,
    (h.2.2.2.2.2.1 (Or.inl rfl)).1,
    h.2.2.2.2.2.2.2.2 400 (Or.inl rfl) (by simp)⟩

end LlmSim
